import Mathlib

/-
Verification of the S3 storage engine of the boring-registry repository
(pkg/storage/s3.go) against its natural-language specification.

The facade operations (GetModule, ListModuleVersions, UploadModule,
GetProvider, ListProviderVersions, UploadProviderReleaseFiles, SigningKeys,
MigrateModules, MigrateProviders) are shallowly embedded as pure Lean
functions over an explicit object-store state (`Store`) and an abstract
backend-response environment (`Backend`).  The backend environment lets a
theorem quantify over network-level outcomes (HTTP 404 on HeadObject,
page-fetch failures, presign failures returning a nil result, ...), while
the concrete `happy` backend instantiates it with an ideal object store in
which every network call succeeds.

Helper functions of the repository that are not part of pkg/storage/s3.go
(the key scheme, the reverse parsers, the checksum parser, the provider
version collection, the error sentinels' definitions) are modelled from the
specification; each such definition carries a doc comment starting with
"Modelled from the spec:".
-/

namespace BoringRegistry

/-- Go `path.Join` as used by the key scheme, modelled per the spec's key
layout: the non-empty segments joined with "/".  (Go's `path.Join`
additionally cleans the path; the spec's layout never produces dot or empty
segments, so the model is the plain join.) -/
def pathJoin (segs : List String) : String :=
  String.intercalate "/" (segs.filter (fun s => s ≠ ""))

/-- Error messages carried by Go `error` values. -/
abbrev ErrMsg := String

/-- The Go error values produced by the storage engine.  Package-level
sentinel errors (ErrModuleNotFound, ErrModuleAlreadyExists,
ErrModuleUploadFailed, ErrModuleListFailed, ErrProviderListFailed,
ErrProviderAlreadyExists) each get their own constructor: they are
distinguishable by the caller without string matching (`errors.Is`).
Untyped errors built with `errors.New`/`fmt.Errorf` are `generic`; errors
propagated from the AWS SDK are `backend`. -/
inductive Err
  | moduleNotFound
  | moduleAlreadyExists (key : String)
  | moduleUploadFailed (msg : ErrMsg)
  | moduleListFailed (msg : ErrMsg)
  | providerListFailed (msg : ErrMsg)
  | providerAlreadyExists
  | backend (msg : ErrMsg)
  | generic (msg : ErrMsg)
  deriving Repr, DecidableEq

/-- Whether an error value is one of the typed registry sentinels, i.e.
recognisable by the caller by type rather than by message string. -/
def Err.isTypedSentinel : Err → Bool
  | .moduleNotFound => true
  | .moduleAlreadyExists _ => true
  | .moduleUploadFailed _ => true
  | .moduleListFailed _ => true
  | .providerListFailed _ => true
  | .providerAlreadyExists => true
  | .backend _ => false
  | .generic _ => false

/-- Go `fmt.Errorf("...: %w", err)` / `errors.Wrap`: wrapping keeps the
typed identity of a sentinel (it stays discoverable via `errors.Is`) and
extends the message of untyped and backend errors. -/
def errWrap (ctx : String) : Err → Err
  | .backend m => .backend (ctx ++ ": " ++ m)
  | .generic m => .generic (ctx ++ ": " ++ m)
  | e => e

/-- core.Module: registry metadata for one module version. -/
structure Module where
  ns : String
  name : String
  provider : String
  version : String
  downloadURL : String
  deriving Repr, DecidableEq

/-- One (operating system, CPU architecture) build target. -/
structure Platform where
  os : String
  arch : String
  deriving Repr, DecidableEq

/-- core.ProviderVersion: one provider version with its platform list. -/
structure ProviderVersion where
  version : String
  platforms : List Platform
  deriving Repr, DecidableEq

/-- core.SigningKeys: the trusted public keys of one namespace. -/
structure SigningKeys where
  keys : List String
  deriving Repr, DecidableEq

/-- core.Provider: registry metadata for one provider release artifact. -/
structure Provider where
  ns : String
  name : String
  version : String
  os : String
  arch : String
  shasum : String
  filename : String
  downloadURL : String
  shasumsURL : String
  shasumsSignatureURL : String
  signingKeys : SigningKeys
  deriving Repr, DecidableEq

/-- Modelled from the spec: the repository's DefaultModuleArchiveFormat
constant is not under src/; the spec names `tar.gz` as the example module
archive format, which we take as the default. -/
def DefaultModuleArchiveFormat : String := "tar.gz"

/-- Modelled from the spec: module key layout
`<bucketPrefix>/modules/<namespace>/<name>/<provider>/<version>/<name>.<archiveFormat>`
(spec section 6, "Object key layout").  `modulePath` itself is not under
src/. -/
def modulePath (pre ns name provider version fmt : String) : String :=
  pathJoin [pre, "modules", ns, name, provider, version, name ++ "." ++ fmt]

/-- Modelled from the spec: the listing root for one module's versions,
`<bucketPrefix>/modules/<namespace>/<name>/<provider>`.  The source calls
this helper modulePathPrefix; it is not under src/. -/
def modulePathRoot (pre ns name provider : String) : String :=
  pathJoin [pre, "modules", ns, name, provider]

/-- Character-level prefix test (Go strings.HasPrefix), structural so the
kernel can evaluate it. -/
def listIsPre : List Char → List Char → Bool
  | [], _ => true
  | _ :: _, [] => false
  | c :: cs, x :: xs => c = x && listIsPre cs xs

/-- Go strings.HasPrefix on strings. -/
def strHasPre (p s : String) : Bool :=
  listIsPre p.data s.data

/-- Go strings.HasSuffix on strings. -/
def strHasSuf (suf s : String) : Bool :=
  listIsPre suf.data.reverse s.data.reverse

/-- Drop the first n characters. -/
def strDrop (n : Nat) (s : String) : String :=
  String.mk (s.data.drop n)

/-- Drop the last n characters. -/
def strDropRight (n : Nat) (s : String) : String :=
  String.mk ((s.data.reverse.drop n).reverse)

/-- Splitting a character list on one separator character. -/
def splitCharAux (c : Char) : List Char → List Char → List String
  | [], acc => [String.mk acc.reverse]
  | x :: xs, acc =>
    if x = c then String.mk acc.reverse :: splitCharAux c xs []
    else splitCharAux c xs (x :: acc)

/-- Go strings.Split on a one-character separator. -/
def splitChar (c : Char) (s : String) : List String :=
  splitCharAux c s.data []

/-- Go strings.Split on the two-space separator of a checksum line. -/
def splitTwoSpaces : List Char → List Char → List String
  | [], acc => [String.mk acc.reverse]
  | ' ' :: ' ' :: rest, acc => String.mk acc.reverse :: splitTwoSpaces rest []
  | x :: xs, acc => splitTwoSpaces xs (x :: acc)

/-- Last "/"-separated segment of a key (Go `path.Base`). -/
def baseName (k : String) : String :=
  match (splitChar '/' k).reverse with
  | b :: _ => b
  | [] => k

/-- Modelled from the spec: the reverse module parser (the source's
moduleFromObject, not under src/).  It splits the key on segment
boundaries, validates segment count and non-emptiness, and checks the file
segment against the layout's `<name>.<archiveFormat>` convention; failure
is reported to the caller, who skips the key. -/
def moduleFromObject (key fmt : String) : Option Module :=
  match (splitChar '/' key).reverse with
  | file :: version :: provider :: name :: ns :: kind :: _ =>
    if kind = "modules" ∧ ns ≠ "" ∧ name ≠ "" ∧ provider ≠ "" ∧ version ≠ "" ∧
        file = name ++ "." ++ fmt then
      some ⟨ns, name, provider, version, ""⟩
    else
      none
  | _ => none

/-- Modelled from the spec: provider archive filenames follow
`terraform-provider-<name>_<version>_<os>_<arch>.zip`; the reverse parser
(the source's core.NewProviderFromArchive, not under src/) extracts
name/version/os/arch from the key's base filename and rejects any filename
not matching the pattern. -/
def parseProviderArchive (key : String) : Option Provider :=
  let base := baseName key
  if strHasSuf ".zip" base then
    let stem := strDropRight 4 base
    if strHasPre "terraform-provider-" stem then
      match splitChar '_' (strDrop 19 stem) with
      | [name, version, os, arch] =>
        if name ≠ "" ∧ version ≠ "" ∧ os ≠ "" ∧ arch ≠ "" then
          some { ns := "", name := name, version := version, os := os,
                 arch := arch, shasum := "", filename := base,
                 downloadURL := "", shasumsURL := "",
                 shasumsSignatureURL := "", signingKeys := ⟨[]⟩ }
        else
          none
      | _ => none
    else
      none
  else
    none

/-- Modelled from the spec: the storage root of one provider's release
files, `<bucketPrefix>/providers/<namespace>/<name>` (spec section 6); the
source's providerStoragePrefix (not under src/) also takes a hostname
segment, passed as "" at every call site in src/, and returns an error for
missing coordinates. -/
def providerStorageRoot (pre hostname ns name : String) : Except ErrMsg String :=
  if ns = "" then .error "namespace argument is empty"
  else if name = "" then .error "name argument is empty"
  else .ok (pathJoin [pre, "providers", hostname, ns, name])

/-- Modelled from the spec: the three keys of one provider release
(archive, shasums manifest, shasums signature) per the spec's layout:
`terraform-provider-<name>_<version>_<os>_<arch>.zip` with sibling
`_SHA256SUMS` / `_SHA256SUMS.sig` files sharing the version's base name.
The source's internalProviderPath is not under src/. -/
def internalProviderPath (pre ns name version os arch : String) :
    Except ErrMsg (String × String × String) :=
  if version = "" ∨ os = "" ∨ arch = "" then
    .error "provider coordinates incomplete"
  else
    match providerStorageRoot pre "" ns name with
    | .error e => .error e
    | .ok dir =>
      let base := "terraform-provider-" ++ name ++ "_" ++ version
      .ok (pathJoin [dir, base ++ "_" ++ os ++ "_" ++ arch ++ ".zip"],
           pathJoin [dir, base ++ "_SHA256SUMS"],
           pathJoin [dir, base ++ "_SHA256SUMS.sig"])

/-- Modelled from the spec: the key of a namespace's signing-keys object;
the source's signingKeysPath is not under src/, the object name
signing_keys.json is taken from the SigningKeys error message in src/ and
it lives under the namespace in the providers tree. -/
def signingKeysPath (pre ns : String) : String :=
  pathJoin [pre, "providers", ns, "signing_keys.json"]

/-- Modelled from the spec: JSON decoding of the signing-keys document
(the source's unmarshalSigningKeys, not under src/) is abstracted: an
empty document fails to decode, any other content decodes to a key set
holding the raw document. -/
def unmarshalSigningKeys (raw : String) : Except ErrMsg SigningKeys :=
  if raw = "" then .error "failed to unmarshal signing keys"
  else .ok ⟨[raw]⟩

/-- Modelled from the spec (section 4.2): the checksum parser.  Lines of
the manifest are `<digest>` + two spaces + `<filename>`; blank lines are
ignored; a line that cannot be split is a format error; a manifest with no
line for the requested filename is a NotFound-style error.  The source's
readSHASums is not under src/. -/
def readSHASumsLines (filename : String) : List String → Except Err String
  | [] => .error (.generic ("no shasum found for " ++ filename))
  | line :: rest =>
    if line = "" then readSHASumsLines filename rest
    else
      match splitTwoSpaces line.data [] with
      | [digest, fname] =>
        if fname = filename then .ok digest
        else readSHASumsLines filename rest
      | _ => .error (.generic ("failed to parse shasum line: " ++ line))

/-- Modelled from the spec: readSHASums over the raw manifest bytes. -/
def readSHASums (content filename : String) : Except Err String :=
  readSHASumsLines filename (splitChar (Char.ofNat 10) content)

/-- Insertion into a list sorted by `le`. -/
def insertLE {α : Type} (le : α → α → Bool) (x : α) : List α → List α
  | [] => [x]
  | y :: ys => if le x y then x :: y :: ys else y :: insertLE le x ys

/-- Insertion sort by `le`. -/
def sortLE {α : Type} (le : α → α → Bool) : List α → List α
  | [] => []
  | x :: xs => insertLE le x (sortLE le xs)

/-- Modelled from the spec: version strings split on "." with all-numeric
components parse to their numeric components; anything else is
malformed. -/
def parseVersionNums (v : String) : Option (List Nat) :=
  let parts := splitChar '.' v
  if parts.all (fun p => !p.data.isEmpty && p.data.all Char.isDigit) then
    some (parts.map (fun p => p.data.foldl (fun n c => n * 10 + (c.toNat - 48)) 0))
  else
    none

/-- Lexicographic order on numeric version components. -/
def natListLE : List Nat → List Nat → Bool
  | [], _ => true
  | _ :: _, [] => false
  | x :: xs, y :: ys => decide (x < y) || (x == y && natListLE xs ys)

/-- Modelled from the spec (section 4.4): versions compare ascending by
component-wise numeric comparison, malformed versions sort after all valid
ones (ties broken by the string order for determinism). -/
def versionLE (a b : String) : Bool :=
  match parseVersionNums a, parseVersionNums b with
  | some xs, some ys => natListLE xs ys
  | some _, none => true
  | none, some _ => false
  | none, none => decide (a ≤ b)

/-- Platforms are ordered by (os, arch) ascending. -/
def platformLE (p q : Platform) : Bool :=
  decide (p.os < q.os) || (p.os == q.os && decide (p.arch ≤ q.arch))

/-- Modelled from the spec (section 4.4): the provider version collection
accumulates the per-platform artifacts discovered during a listing. -/
abbrev Collection : Type := List Provider

/-- Modelled from the spec: Add groups by version later, so it simply
records the artifact. -/
def collectionAdd (c : Collection) (p : Provider) : Collection :=
  List.append c [p]

/-- Modelled from the spec: List() returns the deduplicated versions in
ascending order, each with its (os, arch) platform pairs deduplicated and
sorted. -/
def collectionList (c : Collection) : List ProviderVersion :=
  let cl : List Provider := c
  let versions := sortLE versionLE ((cl.map (fun p => p.version)).dedup)
  versions.map (fun v =>
    { version := v,
      platforms := sortLE platformLE
        (((cl.filter (fun p => p.version == v)).map
          (fun p => Platform.mk p.os p.arch)).dedup) })

/-- Result of the AWS HeadObject call: success, an HTTP response error with
its status code (awshttp.ResponseError), or any other failure. -/
inductive HeadResult
  | found
  | respError (status : Nat)
  | otherError (msg : ErrMsg)
  deriving Repr, DecidableEq

/-- The non-nil part of the AWS PresignGetObject result. -/
structure PresignResult where
  url : String
  deriving Repr, DecidableEq

/-- Outcome of a facade operation: a value, a Go error, or a runtime
panic (nil pointer dereference). -/
inductive Res (α : Type)
  | ok (a : α)
  | err (e : Err)
  | panics
  deriving Repr, DecidableEq

/-- The object store's content: an association of keys to object bytes. -/
abbrev Store := List (String × String)

/-- Content stored at a key, if any. -/
def storeGet (st : Store) (k : String) : Option String :=
  (st.find? (fun kv => kv.1 == k)).map (fun kv => kv.2)

/-- In-place write of a key (S3 put/copy overwrites). -/
def storePut : Store → String → String → Store
  | [], k, v => [(k, v)]
  | (k', v') :: rest, k, v =>
    if k' = k then (k, v) :: rest else (k', v') :: storePut rest k v

/-- The keys the backend lists under a string key-name root. -/
def storeKeysWith (st : Store) (p : String) : List String :=
  (st.map (fun kv => kv.1)).filter (fun k => strHasPre p k)

/-- The backend-response environment: for each network call of the engine,
what the S3 service answers given the current store contents.  Pages of a
listing are the successive ListObjectsV2 paginator results. -/
structure Backend where
  headResp : Store → String → HeadResult
  presignResp : Store → String → Option PresignResult × Option ErrMsg
  pageResp : Store → String → List (Except ErrMsg (List String))
  uploadResp : Store → String → String → Option ErrMsg
  copyResp : Store → String → String → Option ErrMsg
  downloadResp : Store → String → Except ErrMsg String

/-- S3Storage.objectExists (s3.go:393): a HeadObject failure that is an
HTTP response error with status 404 yields (false, nil); any other failure
propagates; success yields (true, nil). -/
def objectExists (h : HeadResult) : Except Err Bool :=
  match h with
  | .found => .ok true
  | .respError status =>
    if status = 404 then .ok false
    else .error (.backend ("http status " ++ toString status))
  | .otherError m => .error (.backend m)

/-- S3Storage.presignedURL (s3.go:381): the helper returns
`presignResult.URL, err`; when the presign client returned a nil result the
field access dereferences nil and panics, otherwise URL and error are both
handed back. -/
def presignedURL (resp : Option PresignResult × Option ErrMsg) :
    Res (String × Option ErrMsg) :=
  match resp with
  | (none, _) => .panics
  | (some r, e) => .ok (r.url, e)

/-- The call-site idiom around presignedURL: `presigned, err := ...;
if err != nil { return ..., err }`. -/
def presignCheck (resp : Option PresignResult × Option ErrMsg) : Res String :=
  match presignedURL resp with
  | .panics => .panics
  | .err e => .err e
  | .ok (_, some m) => .err (.backend m)
  | .ok (u, none) => .ok u

/-- S3Storage.GetModule (s3.go:62): build the module key from the
configured archive format, check existence (404 becomes ErrModuleNotFound),
presign, and assemble the module from the request coordinates. -/
def getModule (b : Backend) (st : Store) (pre fmt ns name provider version : String) :
    Res Module :=
  let key := modulePath pre ns name provider version fmt
  match objectExists (b.headResp st key) with
  | .error e => .err e
  | .ok false => .err .moduleNotFound
  | .ok true =>
    match presignCheck (b.presignResp st key) with
    | .panics => .panics
    | .err e => .err e
    | .ok url => .ok ⟨ns, name, provider, version, url⟩

/-- S3Storage.ListModuleVersions inner loop (s3.go:100): each listed key is
reverse-parsed; a parse failure skips the key silently; a parsed module is
given a presigned URL for its rebuilt key, and a presign failure returns
the error with an empty result. -/
def processModuleKeys (b : Backend) (st : Store) (pre fmt : String) :
    List String → List Module → Res (List Module)
  | [], acc => .ok acc
  | k :: rest, acc =>
    match moduleFromObject k fmt with
    | none => processModuleKeys b st pre fmt rest acc
    | some m =>
      match presignCheck
          (b.presignResp st (modulePath pre m.ns m.name m.provider m.version fmt)) with
      | .panics => .panics
      | .err e => .err e
      | .ok url =>
        processModuleKeys b st pre fmt rest (acc ++ [{ m with downloadURL := url }])

/-- S3Storage.ListModuleVersions page loop (s3.go:94): pages are consumed
in order; a page-fetch failure wraps ErrModuleListFailed and aborts with no
partial results. -/
def listModulesPages (b : Backend) (st : Store) (pre fmt : String) :
    List (Except ErrMsg (List String)) → List Module → Res (List Module)
  | [], acc => .ok acc
  | .error e :: _, _ => .err (.moduleListFailed e)
  | .ok keys :: rest, acc =>
    match processModuleKeys b st pre fmt keys acc with
    | .ok acc2 => listModulesPages b st pre fmt rest acc2
    | .err e => .err e
    | .panics => .panics

/-- S3Storage.ListModuleVersions (s3.go:86). -/
def listModuleVersions (b : Backend) (st : Store) (pre fmt ns name provider : String) :
    Res (List Module) :=
  listModulesPages b st pre fmt (b.pageResp st (modulePathRoot pre ns name provider)) []

/-- S3Storage.UploadModule (s3.go:121): validates the four coordinates,
builds the upload key from DefaultModuleArchiveFormat (s3.go:138), treats a
successful pre-existence GetModule as AlreadyExists and any erroring one as
absent, uploads, and re-reads through GetModule. -/
def uploadModule (b : Backend) (st : Store) (pre fmt ns name provider version body : String) :
    Res Module × Store :=
  if ns = "" then (.err (.generic "namespace not defined"), st)
  else if name = "" then (.err (.generic "name not defined"), st)
  else if provider = "" then (.err (.generic "provider not defined"), st)
  else if version = "" then (.err (.generic "version not defined"), st)
  else
    let key := modulePath pre ns name provider version DefaultModuleArchiveFormat
    match getModule b st pre fmt ns name provider version with
    | .ok _ => (.err (.moduleAlreadyExists key), st)
    | .panics => (.panics, st)
    | .err _ =>
      match b.uploadResp st key body with
      | some e => (.err (.moduleUploadFailed e), st)
      | none =>
        let st2 := storePut st key body
        (getModule b st2 pre fmt ns name provider version, st2)

/-- S3Storage.ListProviderVersions inner loop (s3.go:309): keys that do not
parse as provider archives are skipped silently; the rest are added to the
collection. -/
def processProviderKeys : List String → Collection → Collection
  | [], c => c
  | k :: rest, c =>
    match parseProviderArchive k with
    | none => processProviderKeys rest c
    | some p => processProviderKeys rest (collectionAdd c p)

/-- S3Storage.ListProviderVersions page loop (s3.go:303): a page-fetch
failure wraps ErrProviderListFailed and aborts with no partial results. -/
def listProvidersPages : List (Except ErrMsg (List String)) → Collection →
    Except Err Collection
  | [], c => .ok c
  | .error e :: _, _ => .error (.providerListFailed e)
  | .ok keys :: rest, c => listProvidersPages rest (processProviderKeys keys c)

/-- S3Storage.ListProviderVersions (s3.go:290): lists under the provider
storage root (with a trailing slash), accumulates through the collection,
and fails with an untyped formatted error when the result is empty. -/
def listProviderVersions (b : Backend) (st : Store) (pre ns name : String) :
    Res (List ProviderVersion) :=
  match providerStorageRoot pre "" ns name with
  | .error e => .err (.generic e)
  | .ok root =>
    match listProvidersPages (b.pageResp st (root ++ "/")) [] with
    | .error e => .err e
    | .ok c =>
      let result := collectionList c
      if result.isEmpty then
        .err (.generic ("no provider versions found for " ++ ns ++ "/" ++ name))
      else
        .ok result

/-- S3Storage.UploadProviderReleaseFiles (s3.go:328): validates the three
arguments (the filename check reuses the name message, as in the source),
checks non-existence at the computed key, and uploads. -/
def uploadProviderReleaseFiles (b : Backend) (st : Store)
    (pre ns name filename file : String) : Res Unit × Store :=
  if ns = "" then (.err (.generic "namespace argument is empty"), st)
  else if name = "" then (.err (.generic "name argument is empty"), st)
  else if filename = "" then (.err (.generic "name argument is empty"), st)
  else
    match providerStorageRoot pre "" ns name with
    | .error e => (.err (.generic e), st)
    | .ok root =>
      let key := pathJoin [root, filename]
      match objectExists (b.headResp st key) with
      | .error e => (.err e, st)
      | .ok true => (.err .providerAlreadyExists, st)
      | .ok false =>
        match b.uploadResp st key file with
        | some e => (.err (.generic ("failed to upload provider: " ++ e)), st)
        | none => (.ok (), storePut st key file)

/-- S3Storage.download (s3.go:410): a download failure is wrapped with the
operation and key. -/
def download (b : Backend) (st : Store) (p : String) : Except Err String :=
  match b.downloadResp st p with
  | .error e => .error (.backend ("failed to download: " ++ p ++ ": " ++ e))
  | .ok v => .ok v

/-- S3Storage.SigningKeys (s3.go:368): validates the namespace, downloads
the namespace's signing_keys.json (wrapping a failure with fmt.Errorf), and
decodes it. -/
def signingKeysOp (b : Backend) (st : Store) (pre ns : String) : Res SigningKeys :=
  if ns = "" then .err (.generic "namespace argument is empty")
  else
    match download b st (signingKeysPath pre ns) with
    | .error e =>
      .err (errWrap ("failed to download signing_keys.json for namespace " ++ ns) e)
    | .ok raw =>
      match unmarshalSigningKeys raw with
      | .error e => .err (.generic e)
      | .ok ks => .ok ks

/-- S3Storage.GetProvider (s3.go:241): computes the three keys, presigns
all three (the shasums presign failure is wrapped with its path), downloads
the shasums manifest, extracts the digest for the archive filename, loads
the namespace's signing keys and assembles the provider. -/
def getProvider (b : Backend) (st : Store) (pre ns name version os arch : String) :
    Res Provider :=
  match internalProviderPath pre ns name version os arch with
  | .error e => .err (.generic e)
  | .ok (archivePath, shasumPath, shasumSigPath) =>
    match presignCheck (b.presignResp st archivePath) with
    | .panics => .panics
    | .err e => .err e
    | .ok zipURL =>
      match presignCheck (b.presignResp st shasumPath) with
      | .panics => .panics
      | .err e => .err (errWrap shasumPath e)
      | .ok shasumsURL =>
        match presignCheck (b.presignResp st shasumSigPath) with
        | .panics => .panics
        | .err e => .err e
        | .ok signatureURL =>
          match download b st shasumPath with
          | .error e => .err e
          | .ok shasumBytes =>
            match readSHASums shasumBytes (baseName archivePath) with
            | .error e => .err e
            | .ok shasum =>
              match signingKeysOp b st pre ns with
              | .panics => .panics
              | .err e => .err e
              | .ok ks =>
                .ok { ns := ns, name := name, version := version, os := os,
                      arch := arch, shasum := shasum,
                      filename := baseName archivePath, downloadURL := zipURL,
                      shasumsURL := shasumsURL,
                      shasumsSignatureURL := signatureURL, signingKeys := ks }

/-- One call on the migration logger sink. -/
inductive LogEntry
  | skipping (key : String)
  | dryRun (source target : String)
  | copied (source target : String)
  deriving Repr, DecidableEq

instance {ε α : Type} [DecidableEq ε] [DecidableEq α] : DecidableEq (Except ε α) :=
  fun a b =>
    match a, b with
    | .ok x, .ok y =>
      if h : x = y then .isTrue (congrArg Except.ok h)
      else .isFalse (fun c => h (Except.ok.inj c))
    | .ok _, .error _ => .isFalse (fun c => Except.noConfusion c)
    | .error _, .ok _ => .isFalse (fun c => Except.noConfusion c)
    | .error x, .error y =>
      if h : x = y then .isTrue (congrArg Except.error h)
      else .isFalse (fun c => h (Except.error.inj c))

/-- Outcome of a migration run: the returned error (if any), the final
store contents, the copy operations issued against the backend, and the
log lines emitted. -/
structure MigResult where
  res : Except Err Unit
  store : Store
  copies : List (String × String)
  logs : List LogEntry
  deriving Repr, DecidableEq

/-- Whether a key is already in the current module layout (six validated
segments ending in a file). -/
def isCurrentModuleKey (key : String) : Bool :=
  match (splitChar '/' key).reverse with
  | file :: version :: provider :: name :: ns :: kind :: _ =>
    decide (kind = "modules" ∧ ns ≠ "" ∧ name ≠ "" ∧ provider ≠ "" ∧
      version ≠ "" ∧ file ≠ "")
  | _ => false

/-- Modelled from the spec (section 4.7): the legacy-form predicate (the
source's isUnmigratedModule, not under src/): a key still needs migrating
iff it is not already in the current layout.  The source passes the bucket
key root as first argument. -/
def isUnmigratedModule (pre key : String) : Bool :=
  let _ := pre
  !(isCurrentModuleKey key)

/-- Modelled from the spec: the current-layout target of a legacy module
key (the source's migrationTargetPath, not under src/).  The spec does not
document the legacy layout beyond it not being the current one; we model
the legacy key as the current layout minus the version directory, with the
version recovered from the file segment's stem, and leave unrecognisable
keys unchanged. -/
def migrationTargetPath (pre fmt key : String) : String :=
  match (splitChar '/' key).reverse with
  | file :: provider :: name :: ns :: _ =>
    let stem := ((splitChar '.' file).headD file)
    pathJoin [pre, "modules", ns, name, provider, stem, name ++ "." ++ fmt]
  | _ => key

/-- Modelled from the spec: the current-layout directory for a provider
release key (the source's providerMigrationTargetPath, not under src/):
the provider name is parsed from the archive filename (failing for keys
whose filename does not match the convention), the namespace is the path
segment following "providers". -/
def segAfter : List String → String → String
  | [], _ => ""
  | x :: rest, t => if x = t then rest.headD "" else segAfter rest t

/-- Modelled from the spec: see segAfter; computes
`<bucketPrefix>/providers/<namespace>/<name>` for one listed key. -/
def providerMigrationTargetPath (pre key : String) : Except ErrMsg String :=
  match parseProviderArchive key with
  | none => .error ("not a provider archive: " ++ key)
  | some p =>
    let ns := segAfter ((splitChar '/' key).filter (fun s => s ≠ "")) "providers"
    match providerStorageRoot pre "" ns p.name with
    | .error e => .error e
    | .ok dir => .ok dir

/-- S3Storage.MigrateModules inner loop (s3.go:171): keys already in the
current form are logged and skipped; for the rest the target key is
computed and either logged (dry run) or copied, a copy failure aborting. -/
def migrateModulesKeys (b : Backend) (pre fmt : String) (dryRun : Bool) :
    List String → Store → List (String × String) → List LogEntry → MigResult
  | [], st, cs, ls => ⟨.ok (), st, cs, ls⟩
  | k :: rest, st, cs, ls =>
    if !(isUnmigratedModule pre k) then
      migrateModulesKeys b pre fmt dryRun rest st cs (ls ++ [.skipping k])
    else
      let tgt := migrationTargetPath pre fmt k
      if dryRun then
        migrateModulesKeys b pre fmt dryRun rest st cs (ls ++ [.dryRun k tgt])
      else
        match b.copyResp st k tgt with
        | some e => ⟨.error (.backend e), st, cs, ls⟩
        | none =>
          migrateModulesKeys b pre fmt dryRun rest
            (storePut st tgt ((storeGet st k).getD "")) (cs ++ [(k, tgt)])
            (ls ++ [.copied k tgt])

/-- S3Storage.MigrateModules page loop (s3.go:165): a page-fetch failure
aborts the migration. -/
def migrateModulesPages (b : Backend) (pre fmt : String) (dryRun : Bool) :
    List (Except ErrMsg (List String)) → Store → List (String × String) →
    List LogEntry → MigResult
  | [], st, cs, ls => ⟨.ok (), st, cs, ls⟩
  | .error e :: _, st, cs, ls => ⟨.error (.generic ("failed to page: " ++ e)), st, cs, ls⟩
  | .ok keys :: rest, st, cs, ls =>
    match migrateModulesKeys b pre fmt dryRun keys st cs ls with
    | ⟨.ok _, st2, cs2, ls2⟩ => migrateModulesPages b pre fmt dryRun rest st2 cs2 ls2
    | out => out

/-- S3Storage.MigrateModules (s3.go:158): lists everything under the
modules key root and rewrites legacy keys, copy-forward. -/
def migrateModules (b : Backend) (st : Store) (pre fmt : String) (dryRun : Bool) :
    MigResult :=
  migrateModulesPages b pre fmt dryRun (b.pageResp st (pathJoin [pre, "modules"])) st [] []

/-- S3Storage.MigrateProviders inner loop (s3.go:212): for every listed key
the target directory is computed (a failure aborting the migration); there
is no already-migrated skip; the key is then either logged (dry run) or
copied to `<target directory>/<base name>`. -/
def migrateProvidersKeys (b : Backend) (pre : String) (dryRun : Bool) :
    List String → Store → List (String × String) → List LogEntry → MigResult
  | [], st, cs, ls => ⟨.ok (), st, cs, ls⟩
  | k :: rest, st, cs, ls =>
    match providerMigrationTargetPath pre k with
    | .error e => ⟨.error (.generic e), st, cs, ls⟩
    | .ok dir =>
      let tgt := pathJoin [dir, baseName k]
      if dryRun then
        migrateProvidersKeys b pre dryRun rest st cs (ls ++ [.dryRun k tgt])
      else
        match b.copyResp st k tgt with
        | some e => ⟨.error (.backend e), st, cs, ls⟩
        | none =>
          migrateProvidersKeys b pre dryRun rest
            (storePut st tgt ((storeGet st k).getD "")) (cs ++ [(k, tgt)])
            (ls ++ [.copied k tgt])

/-- S3Storage.MigrateProviders page loop (s3.go:206). -/
def migrateProvidersPages (b : Backend) (pre : String) (dryRun : Bool) :
    List (Except ErrMsg (List String)) → Store → List (String × String) →
    List LogEntry → MigResult
  | [], st, cs, ls => ⟨.ok (), st, cs, ls⟩
  | .error e :: _, st, cs, ls => ⟨.error (.generic ("failed to page: " ++ e)), st, cs, ls⟩
  | .ok keys :: rest, st, cs, ls =>
    match migrateProvidersKeys b pre dryRun keys st cs ls with
    | ⟨.ok _, st2, cs2, ls2⟩ => migrateProvidersPages b pre dryRun rest st2 cs2 ls2
    | out => out

/-- S3Storage.MigrateProviders (s3.go:199). -/
def migrateProviders (b : Backend) (st : Store) (pre : String) (dryRun : Bool) :
    MigResult :=
  migrateProvidersPages b pre dryRun (b.pageResp st (pathJoin [pre, "providers"])) st [] []

/-- The ideal backend: every network call succeeds and answers from the
store; HeadObject on an absent key is the HTTP 404 response; a listing is a
single page of the keys under the requested root; a download of an absent
key is the service's NoSuchKey failure. -/
def happy : Backend where
  headResp := fun st k => if (storeGet st k).isSome then .found else .respError 404
  presignResp := fun _ k => (some ⟨"https://presigned.example/" ++ k⟩, none)
  pageResp := fun st p => [.ok (storeKeysWith st p)]
  uploadResp := fun _ _ _ => none
  copyResp := fun _ _ _ => none
  downloadResp := fun st k =>
    match storeGet st k with
    | some v => .ok v
    | none => .error ("NoSuchKey: " ++ k)

/-- A backend answering a fixed page list for every listing. -/
def withPages (pages : List (Except ErrMsg (List String))) : Backend :=
  { happy with pageResp := fun _ _ => pages }

/-- A backend with an overridden presign response. -/
def withPresign (b : Backend) (f : String → Option PresignResult × Option ErrMsg) :
    Backend :=
  { b with presignResp := fun _ k => f k }

/-! Theorems -/

/-- C1: For every valid non-empty coordinate tuple and any configured
module archive format, UploadModule followed by GetModule with the same
coordinates succeeds and returns a module whose fields equal the uploaded
coordinates, the key UploadModule writes to being the key GetModule reads.
This FAILS in the code: UploadModule builds its key from
DefaultModuleArchiveFormat (s3.go:138) while GetModule builds it from the
configured moduleArchiveFormat (s3.go:63).  With the configured format
"zip" (default "tar.gz") on an empty store, UploadModule writes
modules/acme/mod/aws/1.0.0/mod.tar.gz yet its own final re-read — and any
later GetModule — reads modules/acme/mod/aws/1.0.0/mod.zip and fails with
ErrModuleNotFound; when the configured format equals the default the round
trip succeeds, isolating the slip. -/
theorem c1_upload_get_archive_format_mismatch :
    uploadModule happy [] "" "zip" "acme" "mod" "aws" "1.0.0" "BODY"
      = (.err .moduleNotFound, [("modules/acme/mod/aws/1.0.0/mod.tar.gz", "BODY")])
    ∧ getModule happy [("modules/acme/mod/aws/1.0.0/mod.tar.gz", "BODY")]
        "" "zip" "acme" "mod" "aws" "1.0.0" = .err .moduleNotFound
    ∧ uploadModule happy [] "" "tar.gz" "acme" "mod" "aws" "1.0.0" "BODY"
      = (.ok ⟨"acme", "mod", "aws", "1.0.0",
          "https://presigned.example/modules/acme/mod/aws/1.0.0/mod.tar.gz"⟩,
         [("modules/acme/mod/aws/1.0.0/mod.tar.gz", "BODY")]) := by
  refine ⟨?_, ?_, ?_⟩ <;> rfl

/-- C2: at every coordinate tuple whose module object already exists in
the store (at the key GetModule checks, built from the configured archive
format), a second UploadModule fails with ErrModuleAlreadyExists (wrapped
around the default-format key, as at s3.go:141) and performs no write: the
store is returned unchanged. -/
theorem c2_second_upload_already_exists
    (pre fmt ns name provider version body v : String) (st : Store)
    (hns : ns ≠ "") (hname : name ≠ "") (hprov : provider ≠ "") (hver : version ≠ "")
    (hex : storeGet st (modulePath pre ns name provider version fmt) = some v) :
    uploadModule happy st pre fmt ns name provider version body
      = (.err (.moduleAlreadyExists
          (modulePath pre ns name provider version DefaultModuleArchiveFormat)), st) := by
  simp only [uploadModule, if_neg hns, if_neg hname, if_neg hprov, if_neg hver,
    getModule, happy, hex, Option.isSome_some, if_pos, objectExists,
    presignCheck, presignedURL]

/-- C2 witness: a concrete duplicate upload is rejected with AlreadyExists
and the store is unchanged. -/
theorem c2_second_upload_already_exists_witness :
    uploadModule happy [("modules/acme/mod/aws/1.0.0/mod.zip", "OLD")]
      "" "zip" "acme" "mod" "aws" "1.0.0" "NEW"
      = (.err (.moduleAlreadyExists "modules/acme/mod/aws/1.0.0/mod.tar.gz"),
         [("modules/acme/mod/aws/1.0.0/mod.zip", "OLD")]) := by
  have h := c2_second_upload_already_exists "" "zip" "acme" "mod" "aws" "1.0.0"
    "NEW" "OLD" [("modules/acme/mod/aws/1.0.0/mod.zip", "OLD")]
    (by decide) (by decide) (by decide) (by decide) (by rfl)
  exact h

/-- C5: when the backend listing yields no matching keys,
ListModuleVersions returns the empty list with no error while
ListProviderVersions returns an error ("no provider versions found")
rather than an empty success. -/
theorem c5_empty_listing_asymmetry
    (pre fmt ns name provider root : String) (st : Store) :
    (storeKeysWith st (modulePathRoot pre ns name provider) = [] →
      listModuleVersions happy st pre fmt ns name provider = .ok [])
    ∧ (providerStorageRoot pre "" ns name = .ok root →
       storeKeysWith st (root ++ "/") = [] →
       listProviderVersions happy st pre ns name
         = .err (.generic ("no provider versions found for " ++ ns ++ "/" ++ name))) := by
  constructor
  · intro h
    simp only [listModuleVersions, happy, h, listModulesPages, processModuleKeys]
  · intro hroot h
    simp only [listProviderVersions, hroot, happy, h, listProvidersPages,
      processProviderKeys, collectionList, List.map_nil, List.dedup_nil, sortLE,
      List.isEmpty_nil, if_pos]

/-- C5 witness: on an empty store the module listing is an empty success
and the provider listing is the "no provider versions found" error. -/
theorem c5_empty_listing_asymmetry_witness :
    listModuleVersions happy [] "" "tar.gz" "acme" "mod" "aws" = .ok []
    ∧ listProviderVersions happy [] "" "hashicorp" "random"
      = .err (.generic "no provider versions found for hashicorp/random") := by
  have h := c5_empty_listing_asymmetry "" "tar.gz" "acme" "mod"
    "aws" "providers/acme/mod" ([] : Store)
  have h2 := c5_empty_listing_asymmetry "" "tar.gz" "hashicorp" "random"
    "aws" "providers/hashicorp/random" ([] : Store)
  exact ⟨h.1 rfl, h2.2 rfl rfl⟩

/-- C7: the existence check maps exactly the backend's HTTP 404 response
to false-without-error; a successful head is true-without-error; an HTTP
response error with any other status, and any non-HTTP failure, propagate
as errors. -/
theorem c7_object_exists_404_mapping (status : Nat) (m : ErrMsg) :
    objectExists .found = .ok true
    ∧ objectExists (.respError 404) = .ok false
    ∧ (status ≠ 404 →
        objectExists (.respError status)
          = .error (.backend ("http status " ++ toString status)))
    ∧ objectExists (.otherError m) = .error (.backend m) := by
  refine ⟨rfl, rfl, ?_, rfl⟩
  intro h
  simp [objectExists, h]

/-- C7 witness: a 500 response propagates as an error while 404 maps to
false. -/
theorem c7_object_exists_404_mapping_witness :
    objectExists (.respError 404) = .ok false
    ∧ objectExists (.respError 500) = .error (.backend "http status 500") := by
  have h := c7_object_exists_404_mapping 500 "boom"
  exact ⟨h.2.1, h.2.2.1 (by decide)⟩

/-- C10: UploadModule's duplicate-detection step treats ANY failure of the
pre-existence GetModule call as "module does not exist": whenever that call
returns an error, the upload proceeds and the outcome — upload failure, or
the write followed by the re-read — does not depend on which error the
check produced; the check's error is never propagated. -/
theorem c10_upload_check_error_discarded
    (b : Backend) (st : Store) (pre fmt ns name provider version body : String)
    (e : Err) (hns : ns ≠ "") (hname : name ≠ "") (hprov : provider ≠ "")
    (hver : version ≠ "")
    (hget : getModule b st pre fmt ns name provider version = .err e) :
    uploadModule b st pre fmt ns name provider version body
      = (match b.uploadResp st
            (modulePath pre ns name provider version DefaultModuleArchiveFormat) body with
         | some m => (.err (.moduleUploadFailed m), st)
         | none =>
           (getModule b
              (storePut st
                (modulePath pre ns name provider version DefaultModuleArchiveFormat) body)
              pre fmt ns name provider version,
            storePut st
              (modulePath pre ns name provider version DefaultModuleArchiveFormat) body)) := by
  simp only [uploadModule, if_neg hns, if_neg hname, if_neg hprov, if_neg hver, hget]

/-- C10 witness: on an empty store the check fails with ModuleNotFound,
the error is discarded and the upload goes through. -/
theorem c10_upload_check_error_discarded_witness :
    uploadModule happy [] "" "tar.gz" "acme" "mod" "aws" "1.0.0" "BODY"
      = (getModule happy [("modules/acme/mod/aws/1.0.0/mod.tar.gz", "BODY")]
           "" "tar.gz" "acme" "mod" "aws" "1.0.0",
         [("modules/acme/mod/aws/1.0.0/mod.tar.gz", "BODY")]) := by
  have h := c10_upload_check_error_discarded happy [] "" "tar.gz" "acme" "mod"
    "aws" "1.0.0" "BODY" .moduleNotFound (by decide) (by decide) (by decide)
    (by decide) (by rfl)
  exact h

/-- C9: in every operation that presigns a URL (GetModule,
ListModuleVersions, GetProvider), a presign-client response with a nil
result makes the helper dereference nil, so the operation panics instead
of returning the error; the error is returned to the caller only when the
result is non-nil. -/
theorem c9_presign_nil_result_panics
    (b : Backend) (st : Store) (pre fmt ns name provider version : String)
    (r : PresignResult) (e : ErrMsg) :
    (b.headResp st (modulePath pre ns name provider version fmt) = .found →
      b.presignResp st (modulePath pre ns name provider version fmt) = (none, some e) →
      getModule b st pre fmt ns name provider version = .panics)
    ∧ (b.headResp st (modulePath pre ns name provider version fmt) = .found →
       b.presignResp st (modulePath pre ns name provider version fmt) = (some r, some e) →
       getModule b st pre fmt ns name provider version = .err (.backend e))
    ∧ (∀ (k : String) (m : Module)
        (f : String → Option PresignResult × Option ErrMsg),
        moduleFromObject k fmt = some m →
        f (modulePath pre m.ns m.name m.provider m.version fmt) = (none, some e) →
        listModuleVersions (withPresign (withPages [.ok [k]]) f) st pre fmt ns name provider
          = .panics)
    ∧ (∀ (os arch ap sp sip : String)
        (f : String → Option PresignResult × Option ErrMsg),
        internalProviderPath pre ns name version os arch = .ok (ap, sp, sip) →
        f ap = (none, some e) →
        getProvider (withPresign happy f) st pre ns name version os arch = .panics) := by
  refine ⟨?_, ?_, ?_, ?_⟩
  · intro hh hp
    simp only [getModule, hh, hp, objectExists, presignCheck, presignedURL]
  · intro hh hp
    simp only [getModule, hh, hp, objectExists, presignCheck, presignedURL]
  · intro k m f hk hf
    simp only [listModuleVersions, withPresign, withPages, listModulesPages,
      processModuleKeys, hk, hf, presignCheck, presignedURL]
  · intro os arch ap sp sip f hip hf
    simp only [getProvider, hip, withPresign, hf, presignCheck, presignedURL]

/-- C9 witness: with a presign client answering (nil, error), GetModule on
an existing module, ListModuleVersions over its key, and GetProvider all
panic. -/
theorem c9_presign_nil_result_panics_witness :
    getModule (withPresign happy (fun _ => (none, some "pf")))
      [("modules/acme/mod/aws/1.0.0/mod.tar.gz", "B")] "" "tar.gz"
      "acme" "mod" "aws" "1.0.0" = .panics
    ∧ listModuleVersions
        (withPresign (withPages [.ok ["modules/acme/mod/aws/1.0.0/mod.tar.gz"]])
          (fun _ => (none, some "pf")))
        [] "" "tar.gz" "acme" "mod" "aws" = .panics
    ∧ getProvider (withPresign happy (fun _ => (none, some "pf"))) []
        "" "hashicorp" "random" "2.0.0" "linux" "amd64" = .panics := by
  refine ⟨?_, ?_, ?_⟩
  · exact (c9_presign_nil_result_panics
      (withPresign happy (fun _ => (none, some "pf")))
      [("modules/acme/mod/aws/1.0.0/mod.tar.gz", "B")] "" "tar.gz"
      "acme" "mod" "aws" "1.0.0" ⟨"u"⟩ "pf").1 (by rfl) (by rfl)
  · exact (c9_presign_nil_result_panics
      (withPresign (withPages [.ok ["modules/acme/mod/aws/1.0.0/mod.tar.gz"]])
        (fun _ => (none, some "pf")))
      [] "" "tar.gz" "acme" "mod" "aws" "1.0.0" ⟨"u"⟩ "pf").2.2.1
      "modules/acme/mod/aws/1.0.0/mod.tar.gz" ⟨"acme", "mod", "aws", "1.0.0", ""⟩
      (fun _ => (none, some "pf")) (by decide) (by rfl)
  · exact (c9_presign_nil_result_panics happy [] "" "tar.gz" "hashicorp" "random"
      "aws" "2.0.0" ⟨"u"⟩ "pf").2.2.2 "linux" "amd64"
      "providers/hashicorp/random/terraform-provider-random_2.0.0_linux_amd64.zip"
      "providers/hashicorp/random/terraform-provider-random_2.0.0_SHA256SUMS"
      "providers/hashicorp/random/terraform-provider-random_2.0.0_SHA256SUMS.sig"
      (fun _ => (none, some "pf")) (by rfl) (by rfl)

/-- Dropping a key the module parser rejects does not change the module
key loop. -/
theorem processModuleKeys_parse_none (b : Backend) (st : Store) (pre fmt u : String)
    (hu : moduleFromObject u fmt = none) (ks1 ks2 : List String) (acc : List Module) :
    processModuleKeys b st pre fmt (ks1 ++ u :: ks2) acc
      = processModuleKeys b st pre fmt (ks1 ++ ks2) acc := by
  induction ks1 generalizing acc with
  | nil => simp [processModuleKeys, hu]
  | cons k t ih =>
    cases hk : moduleFromObject k fmt with
    | none =>
      simp only [List.cons_append, processModuleKeys, hk]
      exact ih acc
    | some m =>
      cases hpc : presignCheck
          (b.presignResp st (modulePath pre m.ns m.name m.provider m.version fmt)) with
      | panics => simp only [List.cons_append, processModuleKeys, hk, hpc]
      | err e => simp only [List.cons_append, processModuleKeys, hk, hpc]
      | ok url =>
        simp only [List.cons_append, processModuleKeys, hk, hpc]
        exact ih _

/-- The module key loop only consults the backend through its presign
response. -/
theorem processModuleKeys_presign_congr (b b2 : Backend) (st : Store) (pre fmt : String)
    (hp : ∀ k, b.presignResp st k = b2.presignResp st k) (keys : List String)
    (acc : List Module) :
    processModuleKeys b st pre fmt keys acc = processModuleKeys b2 st pre fmt keys acc := by
  induction keys generalizing acc with
  | nil => rfl
  | cons k t ih =>
    cases hk : moduleFromObject k fmt with
    | none =>
      simp only [processModuleKeys, hk]
      exact ih acc
    | some m =>
      simp only [processModuleKeys, hk,
        hp (modulePath pre m.ns m.name m.provider m.version fmt)]
      cases hpc : presignCheck
          (b2.presignResp st (modulePath pre m.ns m.name m.provider m.version fmt)) with
      | panics => rfl
      | err e => rfl
      | ok url => exact ih _

/-- The module key loop of a backend whose presign succeeds on every key
never errors and never panics. -/
theorem processModuleKeys_withPages_ok (P : List (Except ErrMsg (List String)))
    (st : Store) (pre fmt : String) (keys : List String) (acc : List Module) :
    ∃ acc2, processModuleKeys (withPages P) st pre fmt keys acc = .ok acc2 := by
  induction keys generalizing acc with
  | nil => exact ⟨acc, rfl⟩
  | cons k t ih =>
    cases hk : moduleFromObject k fmt with
    | none =>
      obtain ⟨acc2, h2⟩ := ih acc
      exact ⟨acc2, by simp [processModuleKeys, hk, h2]⟩
    | some m =>
      obtain ⟨acc2, h2⟩ := ih
        (acc ++ [{ m with downloadURL :=
          "https://presigned.example/" ++ modulePath pre m.ns m.name m.provider m.version fmt }])
      refine ⟨acc2, ?_⟩
      simp only [processModuleKeys, hk, withPages, happy, presignCheck, presignedURL]
      exact h2

/-- A page-fetch failure after any run of good pages aborts the module
listing with ErrModuleListFailed and no partial results. -/
theorem listModulesPages_abort (P : List (Except ErrMsg (List String)))
    (st : Store) (pre fmt : String) (e : ErrMsg)
    (rest : List (Except ErrMsg (List String))) (goodPages : List (List String))
    (acc : List Module) :
    listModulesPages (withPages P) st pre fmt
      (goodPages.map Except.ok ++ Except.error e :: rest) acc
      = .err (.moduleListFailed e) := by
  induction goodPages generalizing acc with
  | nil => simp [listModulesPages]
  | cons pg t ih =>
    obtain ⟨acc2, h2⟩ := processModuleKeys_withPages_ok P st pre fmt pg acc
    simp only [List.map_cons, List.cons_append, listModulesPages, h2]
    exact ih acc2

/-- Dropping a key the provider parser rejects does not change the
provider key loop. -/
theorem processProviderKeys_parse_none (u : String)
    (hu : parseProviderArchive u = none) (ks1 ks2 : List String) (c : Collection) :
    processProviderKeys (ks1 ++ u :: ks2) c = processProviderKeys (ks1 ++ ks2) c := by
  induction ks1 generalizing c with
  | nil => simp [processProviderKeys, hu]
  | cons k t ih =>
    simp only [List.cons_append, processProviderKeys]
    cases hk : parseProviderArchive k with
    | none => exact ih c
    | some p => exact ih _

/-- A page-fetch failure after any run of good pages aborts the provider
listing with ErrProviderListFailed. -/
theorem listProvidersPages_abort (e : ErrMsg)
    (rest : List (Except ErrMsg (List String))) (goodPages : List (List String))
    (c : Collection) :
    listProvidersPages (goodPages.map Except.ok ++ Except.error e :: rest) c
      = .error (.providerListFailed e) := by
  induction goodPages generalizing c with
  | nil => simp [listProvidersPages]
  | cons pg t ih =>
    simp only [List.map_cons, List.cons_append, listProvidersPages]
    exact ih _

/-- C6: in both listing operations a key the reverse parser cannot parse
is skipped without producing an error (removing such a key from the listed
page leaves the result unchanged), while a failure to fetch a listing page
aborts the whole call with the typed list-failure error and returns no
partial results. -/
theorem c6_listing_skips_bad_keys_aborts_bad_pages
    (pre fmt ns name provider u root : String) (st : Store)
    (ks1 ks2 : List String) (goodPages : List (List String))
    (rest : List (Except ErrMsg (List String))) (e : ErrMsg) :
    (moduleFromObject u fmt = none →
      listModuleVersions (withPages [.ok (ks1 ++ u :: ks2)]) st pre fmt ns name provider
        = listModuleVersions (withPages [.ok (ks1 ++ ks2)]) st pre fmt ns name provider)
    ∧ listModuleVersions (withPages (goodPages.map Except.ok ++ Except.error e :: rest))
        st pre fmt ns name provider = .err (.moduleListFailed e)
    ∧ (parseProviderArchive u = none →
       listProviderVersions (withPages [.ok (ks1 ++ u :: ks2)]) st pre ns name
         = listProviderVersions (withPages [.ok (ks1 ++ ks2)]) st pre ns name)
    ∧ (providerStorageRoot pre "" ns name = .ok root →
       listProviderVersions (withPages (goodPages.map Except.ok ++ Except.error e :: rest))
         st pre ns name = .err (.providerListFailed e)) := by
  refine ⟨?_, ?_, ?_, ?_⟩
  · intro hu
    show listModulesPages (withPages [.ok (ks1 ++ u :: ks2)]) st pre fmt
        [.ok (ks1 ++ u :: ks2)] []
      = listModulesPages (withPages [.ok (ks1 ++ ks2)]) st pre fmt [.ok (ks1 ++ ks2)] []
    simp only [listModulesPages]
    rw [processModuleKeys_parse_none _ _ _ _ _ hu,
      processModuleKeys_presign_congr (withPages [.ok (ks1 ++ u :: ks2)])
        (withPages [.ok (ks1 ++ ks2)]) st pre fmt (fun _ => rfl) (ks1 ++ ks2) []]
  · exact listModulesPages_abort _ st pre fmt e rest goodPages []
  · intro hu
    simp only [listProviderVersions, withPages]
    cases hroot : providerStorageRoot pre "" ns name with
    | error m => rfl
    | ok r =>
      simp only [listProvidersPages, processProviderKeys_parse_none _ hu]
  · intro hroot
    simp only [listProviderVersions, withPages, hroot,
      listProvidersPages_abort e rest goodPages []]

/-- C6 witness: a concrete unparsable key is dropped from both listings
without error, and a concrete failing page aborts both listings. -/
theorem c6_listing_skips_bad_keys_aborts_bad_pages_witness :
    (listModuleVersions (withPages [.ok ["garbage", "modules/acme/mod/aws/1.0.0/mod.tar.gz"]])
        [] "" "tar.gz" "acme" "mod" "aws"
      = listModuleVersions (withPages [.ok ["modules/acme/mod/aws/1.0.0/mod.tar.gz"]])
          [] "" "tar.gz" "acme" "mod" "aws")
    ∧ listModuleVersions (withPages [.ok ["modules/acme/mod/aws/1.0.0/mod.tar.gz"], .error "netfail"])
        [] "" "tar.gz" "acme" "mod" "aws" = .err (.moduleListFailed "netfail")
    ∧ (listProviderVersions (withPages [.ok ["garbage",
          "providers/hashicorp/random/terraform-provider-random_2.0.0_linux_amd64.zip"]])
        [] "" "hashicorp" "random"
      = listProviderVersions (withPages [.ok
          ["providers/hashicorp/random/terraform-provider-random_2.0.0_linux_amd64.zip"]])
          [] "" "hashicorp" "random")
    ∧ listProviderVersions (withPages [.ok
          ["providers/hashicorp/random/terraform-provider-random_2.0.0_linux_amd64.zip"],
          .error "netfail"]) [] "" "hashicorp" "random"
        = .err (.providerListFailed "netfail") := by
  have h1 := c6_listing_skips_bad_keys_aborts_bad_pages "" "tar.gz" "acme" "mod" "aws"
    "garbage" "x" [] [] ["modules/acme/mod/aws/1.0.0/mod.tar.gz"]
    [["modules/acme/mod/aws/1.0.0/mod.tar.gz"]] [] "netfail"
  have h2 := c6_listing_skips_bad_keys_aborts_bad_pages "" "tar.gz" "hashicorp" "random"
    "aws" "garbage" "providers/hashicorp/random" []
    ["providers/hashicorp/random/terraform-provider-random_2.0.0_linux_amd64.zip"] []
    [["providers/hashicorp/random/terraform-provider-random_2.0.0_linux_amd64.zip"]]
    [] "netfail"
  exact ⟨h1.1 (by decide), h1.2.1, h2.2.2.1 (by decide), h2.2.2.2 (by rfl)⟩

/-- C4 counterexample: the claim says every NotFound/AlreadyExists outcome
of the facade — including ListProviderVersions' empty result — is a typed
error distinguishable from BackendError by type.  At the concrete input
(namespace hashicorp, name random, empty store) ListProviderVersions
returns the untyped formatted error `fmt.Errorf("no provider versions
found for %s/%s", ...)` (s3.go:322), recognisable only by its message
string. -/
theorem c4_counterexample_untyped_not_found :
    listProviderVersions happy [] "" "hashicorp" "random"
      = .err (.generic "no provider versions found for hashicorp/random")
    ∧ Err.isTypedSentinel (.generic "no provider versions found for hashicorp/random")
      = false := by
  exact ⟨rfl, rfl⟩

/-- C4 (amended): GetModule's NotFound and the AlreadyExists outcomes of
UploadModule and UploadProviderReleaseFiles are typed sentinel errors
distinguishable from BackendError by type; however ListProviderVersions'
empty result is an untyped formatted error and SigningKeys for a missing
namespace object returns the wrapped backend download failure, neither
carrying a typed NotFound identity. -/
theorem c4_typed_errors_amended
    (pre fmt ns name provider version body fn v root : String) (st : Store) :
    (storeGet st (modulePath pre ns name provider version fmt) = none →
      getModule happy st pre fmt ns name provider version = .err .moduleNotFound
      ∧ Err.isTypedSentinel .moduleNotFound = true)
    ∧ (ns ≠ "" → name ≠ "" → provider ≠ "" → version ≠ "" →
       storeGet st (modulePath pre ns name provider version fmt) = some v →
       uploadModule happy st pre fmt ns name provider version body
         = (.err (.moduleAlreadyExists
             (modulePath pre ns name provider version DefaultModuleArchiveFormat)), st)
       ∧ Err.isTypedSentinel
           (.moduleAlreadyExists
             (modulePath pre ns name provider version DefaultModuleArchiveFormat)) = true)
    ∧ (ns ≠ "" → name ≠ "" → fn ≠ "" →
       providerStorageRoot pre "" ns name = .ok root →
       storeGet st (pathJoin [root, fn]) = some v →
       uploadProviderReleaseFiles happy st pre ns name fn body
         = (.err .providerAlreadyExists, st)
       ∧ Err.isTypedSentinel .providerAlreadyExists = true)
    ∧ (providerStorageRoot pre "" ns name = .ok root →
       storeKeysWith st (root ++ "/") = [] →
       listProviderVersions happy st pre ns name
         = .err (.generic ("no provider versions found for " ++ ns ++ "/" ++ name))
       ∧ Err.isTypedSentinel
           (.generic ("no provider versions found for " ++ ns ++ "/" ++ name)) = false)
    ∧ (ns ≠ "" → storeGet st (signingKeysPath pre ns) = none →
       ∃ m, signingKeysOp happy st pre ns = .err (.backend m)
         ∧ Err.isTypedSentinel (.backend m) = false) := by
  refine ⟨?_, ?_, ?_, ?_, ?_⟩
  · intro h
    refine ⟨?_, rfl⟩
    simp [getModule, happy, h, objectExists]
  · intro hns hname hprov hver hex
    refine ⟨?_, rfl⟩
    simp only [uploadModule, if_neg hns, if_neg hname, if_neg hprov, if_neg hver,
      getModule, happy, hex, Option.isSome_some, if_pos, objectExists,
      presignCheck, presignedURL]
  · intro hns hname hfn hroot hex
    refine ⟨?_, rfl⟩
    simp only [uploadProviderReleaseFiles, if_neg hns, if_neg hname, if_neg hfn,
      hroot, happy, hex, Option.isSome_some, if_pos, objectExists]
  · intro hroot h
    refine ⟨?_, rfl⟩
    simp only [listProviderVersions, hroot, happy, h, listProvidersPages,
      processProviderKeys, collectionList, List.map_nil, List.dedup_nil, sortLE,
      List.isEmpty_nil, if_pos]
  · intro hns h
    refine ⟨"failed to download signing_keys.json for namespace " ++ ns ++ ": "
      ++ ("failed to download: " ++ signingKeysPath pre ns ++ ": "
        ++ ("NoSuchKey: " ++ signingKeysPath pre ns)), ?_, rfl⟩
    simp [signingKeysOp, hns, download, happy, h, errWrap]

/-- C4 witness: the typed and untyped outcomes of the amended statement at
concrete inputs. -/
theorem c4_typed_errors_amended_witness :
    getModule happy [] "" "tar.gz" "acme" "mod" "aws" "1.0.0" = .err .moduleNotFound
    ∧ uploadModule happy [("modules/acme/mod/aws/1.0.0/mod.tar.gz", "OLD")]
        "" "tar.gz" "acme" "mod" "aws" "1.0.0" "NEW"
        = (.err (.moduleAlreadyExists "modules/acme/mod/aws/1.0.0/mod.tar.gz"),
           [("modules/acme/mod/aws/1.0.0/mod.tar.gz", "OLD")])
    ∧ uploadProviderReleaseFiles happy
        [("providers/hashicorp/random/f.zip", "OLD")] "" "hashicorp" "random"
        "f.zip" "NEW"
        = (.err .providerAlreadyExists, [("providers/hashicorp/random/f.zip", "OLD")])
    ∧ Err.isTypedSentinel
        (.generic "no provider versions found for hashicorp/random") = false
    ∧ (∃ m, signingKeysOp happy [] "" "hashicorp" = .err (.backend m)
        ∧ Err.isTypedSentinel (.backend m) = false) := by
  have h1 := c4_typed_errors_amended "" "tar.gz" "acme" "mod" "aws" "1.0.0"
    "NEW" "f.zip" "OLD" "providers/acme/mod" [("modules/acme/mod/aws/1.0.0/mod.tar.gz", "OLD")]
  have h2 := c4_typed_errors_amended "" "tar.gz" "hashicorp" "random" "aws" "1.0.0"
    "NEW" "f.zip" "OLD" "providers/hashicorp/random"
    [("providers/hashicorp/random/f.zip", "OLD")]
  have h3 := c4_typed_errors_amended "" "tar.gz" "acme" "mod" "aws" "1.0.0"
    "NEW" "f.zip" "OLD" "providers/acme/mod" []
  have h4 := c4_typed_errors_amended "" "tar.gz" "hashicorp" "random" "aws" "1.0.0"
    "NEW" "f.zip" "OLD" "providers/hashicorp/random" []
  refine ⟨(h3.1 (by rfl)).1, ?_, ?_, ?_, ?_⟩
  · exact (h1.2.1 (by decide) (by decide) (by decide) (by decide) (by rfl)).1
  · exact (h2.2.2.1 (by decide) (by decide) (by decide) (by rfl) (by rfl)).1
  · exact (h4.2.2.2.1 (by rfl) (by rfl)).2
  · exact h4.2.2.2.2 (by decide) (by rfl)

/-- In a live module-migration run, every recorded copy was either already
recorded or has a source key that still needed migrating. -/
theorem migrateModulesKeys_copies_mem (b : Backend) (pre fmt : String)
    (keys : List String) :
    ∀ (st : Store) (cs : List (String × String)) (ls : List LogEntry)
      (p : String × String),
    p ∈ (migrateModulesKeys b pre fmt false keys st cs ls).copies →
    p ∈ cs ∨ isUnmigratedModule pre p.1 = true := by
  induction keys with
  | nil =>
    intro st cs ls p hp
    exact .inl hp
  | cons k rest ih =>
    intro st cs ls p hp
    cases hk : isUnmigratedModule pre k with
    | false =>
      simp only [migrateModulesKeys, hk, Bool.not_false, if_true] at hp
      exact ih st cs _ p hp
    | true =>
      simp only [migrateModulesKeys, hk, Bool.not_true, if_false, Bool.false_eq_true,
        if_neg] at hp
      cases hc : b.copyResp st k (migrationTargetPath pre fmt k) with
      | some e =>
        rw [hc] at hp
        exact .inl hp
      | none =>
        rw [hc] at hp
        rcases ih _ _ _ p hp with h | h
        · rcases List.mem_append.mp h with h2 | h2
          · exact .inl h2
          · right
            rcases List.mem_singleton.mp h2 with rfl
            exact hk
        · exact .inr h

/-- Page-level version of migrateModulesKeys_copies_mem. -/
theorem migrateModulesPages_copies_mem (b : Backend) (pre fmt : String)
    (pages : List (Except ErrMsg (List String))) :
    ∀ (st : Store) (cs : List (String × String)) (ls : List LogEntry)
      (p : String × String),
    p ∈ (migrateModulesPages b pre fmt false pages st cs ls).copies →
    p ∈ cs ∨ isUnmigratedModule pre p.1 = true := by
  induction pages with
  | nil =>
    intro st cs ls p hp
    exact .inl hp
  | cons pg rest ih =>
    intro st cs ls p hp
    cases pg with
    | error e =>
      exact .inl hp
    | ok keys =>
      rcases hkr : migrateModulesKeys b pre fmt false keys st cs ls with ⟨res, st2, cs2, ls2⟩
      simp only [migrateModulesPages, hkr] at hp
      cases res with
      | ok u =>
        rcases ih st2 cs2 ls2 p hp with h | h
        · exact migrateModulesKeys_copies_mem b pre fmt keys st cs ls p
            (by rw [hkr]; exact h)
        · exact .inr h
      | error e =>
        exact migrateModulesKeys_copies_mem b pre fmt keys st cs ls p
          (by rw [hkr]; exact hp)

/-- A dry module-migration run changes nothing: it succeeds, leaves the
store as it was and issues no copy. -/
theorem migrateModulesKeys_dry (b : Backend) (pre fmt : String) (keys : List String) :
    ∀ (st : Store) (cs : List (String × String)) (ls : List LogEntry),
    (migrateModulesKeys b pre fmt true keys st cs ls).res = .ok ()
    ∧ (migrateModulesKeys b pre fmt true keys st cs ls).store = st
    ∧ (migrateModulesKeys b pre fmt true keys st cs ls).copies = cs := by
  induction keys with
  | nil => intro st cs ls; exact ⟨rfl, rfl, rfl⟩
  | cons k rest ih =>
    intro st cs ls
    cases hk : isUnmigratedModule pre k with
    | false => simpa [migrateModulesKeys, hk] using ih st cs _
    | true => simpa [migrateModulesKeys, hk] using ih st cs _

/-- Page-level version of migrateModulesKeys_dry. -/
theorem migrateModulesPages_dry (b : Backend) (pre fmt : String)
    (pages : List (Except ErrMsg (List String))) :
    ∀ (st : Store) (cs : List (String × String)) (ls : List LogEntry),
    (migrateModulesPages b pre fmt true pages st cs ls).store = st
    ∧ (migrateModulesPages b pre fmt true pages st cs ls).copies = cs := by
  induction pages with
  | nil => intro st cs ls; exact ⟨rfl, rfl⟩
  | cons pg rest ih =>
    intro st cs ls
    cases pg with
    | error e => exact ⟨rfl, rfl⟩
    | ok keys =>
      rcases hkr : migrateModulesKeys b pre fmt true keys st cs ls with ⟨res, st2, cs2, ls2⟩
      have hd := migrateModulesKeys_dry b pre fmt keys st cs ls
      rw [hkr] at hd
      obtain ⟨hres, hst, hcs⟩ := hd
      simp only at hres hst hcs
      subst hres
      simp only [migrateModulesPages, hkr, hst, hcs]
      exact ih st cs ls2

/-- A dry provider-migration run leaves the store as it was and issues no
copy (even when a target-path failure aborts it early). -/
theorem migrateProvidersKeys_dry (b : Backend) (pre : String) (keys : List String) :
    ∀ (st : Store) (cs : List (String × String)) (ls : List LogEntry),
    (migrateProvidersKeys b pre true keys st cs ls).store = st
    ∧ (migrateProvidersKeys b pre true keys st cs ls).copies = cs := by
  induction keys with
  | nil => intro st cs ls; exact ⟨rfl, rfl⟩
  | cons k rest ih =>
    intro st cs ls
    cases hpt : providerMigrationTargetPath pre k with
    | error e => simp [migrateProvidersKeys, hpt]
    | ok dir => simpa [migrateProvidersKeys, hpt] using ih st cs _

/-- Page-level version of migrateProvidersKeys_dry. -/
theorem migrateProvidersPages_dry (b : Backend) (pre : String)
    (pages : List (Except ErrMsg (List String))) :
    ∀ (st : Store) (cs : List (String × String)) (ls : List LogEntry),
    (migrateProvidersPages b pre true pages st cs ls).store = st
    ∧ (migrateProvidersPages b pre true pages st cs ls).copies = cs := by
  induction pages with
  | nil => intro st cs ls; exact ⟨rfl, rfl⟩
  | cons pg rest ih =>
    intro st cs ls
    cases pg with
    | error e => exact ⟨rfl, rfl⟩
    | ok keys =>
      rcases hkr : migrateProvidersKeys b pre true keys st cs ls with ⟨res, st2, cs2, ls2⟩
      have hd := migrateProvidersKeys_dry b pre keys st cs ls
      rw [hkr] at hd
      obtain ⟨hst, hcs⟩ := hd
      simp only at hst hcs
      cases res with
      | ok u =>
        simp only [migrateProvidersPages, hkr, hst, hcs]
        exact ih st cs ls2
      | error e =>
        simp only [migrateProvidersPages, hkr]
        exact ⟨hst, hcs⟩

/-- Already-logged lines survive the rest of a dry module-migration run. -/
theorem migrateModulesKeys_logs_mono (b : Backend) (pre fmt : String)
    (keys : List String) :
    ∀ (st : Store) (cs : List (String × String)) (ls : List LogEntry) (x : LogEntry),
    x ∈ ls → x ∈ (migrateModulesKeys b pre fmt true keys st cs ls).logs := by
  induction keys with
  | nil => intro st cs ls x hx; exact hx
  | cons k rest ih =>
    intro st cs ls x hx
    cases hk : isUnmigratedModule pre k with
    | false =>
      simp only [migrateModulesKeys, hk, Bool.not_false, if_true]
      exact ih st cs _ x (List.mem_append_left _ hx)
    | true =>
      simp only [migrateModulesKeys, hk, Bool.not_true, Bool.false_eq_true, if_neg,
        if_true, if_pos]
      exact ih st cs _ x (List.mem_append_left _ hx)

/-- Every candidate key of a dry module-migration run is reported to the
logger with its computed target. -/
theorem migrateModulesKeys_dry_log (b : Backend) (pre fmt : String)
    (keys : List String) :
    ∀ (st : Store) (cs : List (String × String)) (ls : List LogEntry) (k : String),
    k ∈ keys → isUnmigratedModule pre k = true →
    LogEntry.dryRun k (migrationTargetPath pre fmt k)
      ∈ (migrateModulesKeys b pre fmt true keys st cs ls).logs := by
  induction keys with
  | nil => intro st cs ls k hk; exact absurd hk (List.not_mem_nil k)
  | cons k0 rest ih =>
    intro st cs ls k hk hum
    rcases List.mem_cons.mp hk with rfl | hmem
    · simp only [migrateModulesKeys, hum, Bool.not_true, Bool.false_eq_true, if_neg,
        if_true, if_pos]
      exact migrateModulesKeys_logs_mono b pre fmt rest st cs _ _
        (List.mem_append_right _ (List.mem_singleton.mpr rfl))
    · cases hk0 : isUnmigratedModule pre k0 with
      | false =>
        simp only [migrateModulesKeys, hk0, Bool.not_false, if_true]
        exact ih st cs _ k hmem hum
      | true =>
        simp only [migrateModulesKeys, hk0, Bool.not_true, Bool.false_eq_true, if_neg,
          if_true, if_pos]
        exact ih st cs _ k hmem hum

/-- Already-logged lines survive the rest of a dry provider-migration run
when it succeeds. -/
theorem migrateProvidersKeys_logs_mono (b : Backend) (pre : String)
    (keys : List String) :
    ∀ (st : Store) (cs : List (String × String)) (ls : List LogEntry) (x : LogEntry),
    x ∈ ls →
    (migrateProvidersKeys b pre true keys st cs ls).res = .ok () →
    x ∈ (migrateProvidersKeys b pre true keys st cs ls).logs := by
  induction keys with
  | nil => intro st cs ls x hx _; exact hx
  | cons k rest ih =>
    intro st cs ls x hx hres
    cases hpt : providerMigrationTargetPath pre k with
    | error e =>
      rw [show migrateProvidersKeys b pre true (k :: rest) st cs ls
          = ⟨.error (.generic e), st, cs, ls⟩ by simp [migrateProvidersKeys, hpt]] at hres
      exact absurd hres (by simp)
    | ok dir =>
      simp only [migrateProvidersKeys, hpt, if_true, if_pos] at hres ⊢
      exact ih st cs _ x (List.mem_append_left _ hx) hres

/-- Every key listed by a successful dry provider-migration run is
reported to the logger. -/
theorem migrateProvidersKeys_dry_log (b : Backend) (pre : String)
    (keys : List String) :
    ∀ (st : Store) (cs : List (String × String)) (ls : List LogEntry) (k : String),
    k ∈ keys →
    (migrateProvidersKeys b pre true keys st cs ls).res = .ok () →
    ∃ t, LogEntry.dryRun k t ∈ (migrateProvidersKeys b pre true keys st cs ls).logs := by
  induction keys with
  | nil => intro st cs ls k hk; exact absurd hk (List.not_mem_nil k)
  | cons k0 rest ih =>
    intro st cs ls k hk hres
    cases hpt : providerMigrationTargetPath pre k0 with
    | error e =>
      rw [show migrateProvidersKeys b pre true (k0 :: rest) st cs ls
          = ⟨.error (.generic e), st, cs, ls⟩ by simp [migrateProvidersKeys, hpt]] at hres
      exact absurd hres (by simp)
    | ok dir =>
      simp only [migrateProvidersKeys, hpt, if_true, if_pos] at hres ⊢
      rcases List.mem_cons.mp hk with rfl | hmem
      · exact ⟨pathJoin [dir, baseName k],
          migrateProvidersKeys_logs_mono b pre rest st cs _ _
            (List.mem_append_right _ (List.mem_singleton.mpr rfl)) hres⟩
      · exact ih st cs _ k hmem hres

/-- C3 counterexample: the claim says both migrations skip every listed
key already in the current layout and a completed migration re-run issues
zero copies.  Concretely: (1) MigrateProviders, listing the single
already-current key providers/hashicorp/random/terraform-provider-
random_2.0.0_linux_amd64.zip, still issues a copy (onto itself) — it has
no skip branch (s3.go:212); (2) MigrateModules over the state of a
completed migration (legacy key plus its target both present — legacy keys
are never deleted) again copies the legacy key, so the second run performs
one copy, not zero. -/
theorem c3_counterexample_current_keys_still_copied :
    (migrateProviders happy
        [("providers/hashicorp/random/terraform-provider-random_2.0.0_linux_amd64.zip",
          "bin")] "" false).copies
      = [("providers/hashicorp/random/terraform-provider-random_2.0.0_linux_amd64.zip",
          "providers/hashicorp/random/terraform-provider-random_2.0.0_linux_amd64.zip")]
    ∧ (migrateModules happy
        [("modules/acme/mod/aws/mod-1.0.0.tar.gz", "B"),
         ("modules/acme/mod/aws/mod-1/mod.tar.gz", "B")] "" "tar.gz" false).copies
      = [("modules/acme/mod/aws/mod-1.0.0.tar.gz",
          "modules/acme/mod/aws/mod-1/mod.tar.gz")] := by
  exact ⟨rfl, rfl⟩

/-- C3 (amended): MigrateModules issues copies only for keys that are not
already in the current layout, so listed current-form keys are skipped;
but since legacy keys are left in place, a second run of a completed
module migration re-copies each legacy key to its same target (leaving the
store contents unchanged) rather than performing zero copy operations; and
MigrateProviders has no skip at all: it issues a copy for every listed key
whose filename parses as a provider archive, re-copying already-current
keys onto themselves (store contents unchanged). -/
theorem c3_migration_skip_amended (b : Backend) (st : Store) (pre fmt : String)
    (p : String × String) :
    (p ∈ (migrateModules b st pre fmt false).copies →
      isUnmigratedModule pre p.1 = true)
    ∧ (migrateModules happy
        [("modules/acme/mod/aws/mod-1.0.0.tar.gz", "B"),
         ("modules/acme/mod/aws/mod-1/mod.tar.gz", "B")] "" "tar.gz" false).store
      = [("modules/acme/mod/aws/mod-1.0.0.tar.gz", "B"),
         ("modules/acme/mod/aws/mod-1/mod.tar.gz", "B")]
    ∧ (migrateProviders happy
        [("providers/hashicorp/random/terraform-provider-random_2.0.0_linux_amd64.zip",
          "bin")] "" false).copies
      = [("providers/hashicorp/random/terraform-provider-random_2.0.0_linux_amd64.zip",
          "providers/hashicorp/random/terraform-provider-random_2.0.0_linux_amd64.zip")]
    ∧ (migrateProviders happy
        [("providers/hashicorp/random/terraform-provider-random_2.0.0_linux_amd64.zip",
          "bin")] "" false).store
      = [("providers/hashicorp/random/terraform-provider-random_2.0.0_linux_amd64.zip",
          "bin")] := by
  refine ⟨?_, rfl, rfl, rfl⟩
  intro hp
  rcases migrateModulesPages_copies_mem b pre fmt
      (b.pageResp st (pathJoin [pre, "modules"])) st [] [] p hp with h | h
  · exact absurd h (List.not_mem_nil p)
  · exact h

/-- C3 witness: the copy recorded for a concrete legacy key has a source
the legacy-form predicate accepts. -/
theorem c3_migration_skip_amended_witness :
    isUnmigratedModule "" "modules/acme/mod/aws/mod-1.0.0.tar.gz" = true := by
  exact (c3_migration_skip_amended happy
    [("modules/acme/mod/aws/mod-1.0.0.tar.gz", "B")] "" "tar.gz"
    ("modules/acme/mod/aws/mod-1.0.0.tar.gz",
     "modules/acme/mod/aws/mod-1/mod.tar.gz")).1 (by decide)

/-- C8 counterexample: the claim says a dry run issues zero copy
operations while still reporting every candidate key to the logger.  The
zero-copies half holds, but in MigrateProviders the target-path
computation and its error return (s3.go:213-216) run before the dryRun
branch (s3.go:220), so a dry run that lists a key whose filename is not a
provider archive — here the namespace's signing_keys.json, which lives
under the very providers/ root the migration lists — aborts at that key:
the run errors with zero copies and an EMPTY log, so the genuine candidate
key listed right after it is never reported. -/
theorem c8_counterexample_dry_run_unreported_candidate :
    (migrateProviders happy
        [("providers/hashicorp/signing_keys.json", "keys"),
         ("providers/hashicorp/random/terraform-provider-random_2.0.0_linux_amd64.zip",
          "bin")] "" true).copies = []
    ∧ (migrateProviders happy
        [("providers/hashicorp/signing_keys.json", "keys"),
         ("providers/hashicorp/random/terraform-provider-random_2.0.0_linux_amd64.zip",
          "bin")] "" true).logs = []
    ∧ (migrateProviders happy
        [("providers/hashicorp/signing_keys.json", "keys"),
         ("providers/hashicorp/random/terraform-provider-random_2.0.0_linux_amd64.zip",
          "bin")] "" true).res
      = .error (.generic "not a provider archive: providers/hashicorp/signing_keys.json") := by
  exact ⟨rfl, rfl, rfl⟩

/-- C8 (amended): with dryRun set, MigrateModules and MigrateProviders
issue zero copy operations and leave the object store unchanged, for every
backend behaviour; MigrateModules' dry run (against the ideal backend)
reports every candidate key — each listed legacy-form module key gets a
dry-run log line with its computed target — while MigrateProviders' dry
run reports every listed key only when it completes: a key whose
target-path computation fails aborts the dry run before the dry-run
branch, leaving later candidate keys unreported. -/
theorem c8_dry_run_zero_copies (b : Backend) (st : Store) (pre fmt k : String) :
    ((migrateModules b st pre fmt true).copies = []
      ∧ (migrateModules b st pre fmt true).store = st)
    ∧ ((migrateProviders b st pre true).copies = []
      ∧ (migrateProviders b st pre true).store = st)
    ∧ (k ∈ storeKeysWith st (pathJoin [pre, "modules"]) →
       isUnmigratedModule pre k = true →
       LogEntry.dryRun k (migrationTargetPath pre fmt k)
         ∈ (migrateModules happy st pre fmt true).logs)
    ∧ ((migrateProviders happy st pre true).res = .ok () →
       k ∈ storeKeysWith st (pathJoin [pre, "providers"]) →
       ∃ t, LogEntry.dryRun k t ∈ (migrateProviders happy st pre true).logs) := by
  refine ⟨?_, ?_, ?_, ?_⟩
  · have h := migrateModulesPages_dry b pre fmt
      (b.pageResp st (pathJoin [pre, "modules"])) st [] []
    exact ⟨h.2, h.1⟩
  · have h := migrateProvidersPages_dry b pre
      (b.pageResp st (pathJoin [pre, "providers"])) st [] []
    exact ⟨h.2, h.1⟩
  · intro hmem hum
    show LogEntry.dryRun k (migrationTargetPath pre fmt k)
      ∈ (migrateModulesPages happy pre fmt true
          [.ok (storeKeysWith st (pathJoin [pre, "modules"]))] st [] []).logs
    rcases hkr : migrateModulesKeys happy pre fmt true
        (storeKeysWith st (pathJoin [pre, "modules"])) st [] [] with ⟨res, st2, cs2, ls2⟩
    have hd := migrateModulesKeys_dry happy pre fmt
      (storeKeysWith st (pathJoin [pre, "modules"])) st [] []
    rw [hkr] at hd
    have hres : res = .ok () := hd.1
    subst hres
    simp only [migrateModulesPages, hkr]
    have hl := migrateModulesKeys_dry_log happy pre fmt
      (storeKeysWith st (pathJoin [pre, "modules"])) st [] [] k hmem hum
    rw [hkr] at hl
    exact hl
  · intro hres hmem
    rw [show migrateProviders happy st pre true
        = migrateProvidersPages happy pre true
            [.ok (storeKeysWith st (pathJoin [pre, "providers"]))] st [] [] from rfl]
      at hres ⊢
    rcases hkr : migrateProvidersKeys happy pre true
        (storeKeysWith st (pathJoin [pre, "providers"])) st [] [] with ⟨res, st2, cs2, ls2⟩
    rw [show migrateProvidersPages happy pre true
          [.ok (storeKeysWith st (pathJoin [pre, "providers"]))] st [] []
        = (match migrateProvidersKeys happy pre true
              (storeKeysWith st (pathJoin [pre, "providers"])) st [] [] with
           | ⟨.ok _, st2, cs2, ls2⟩ => migrateProvidersPages happy pre true [] st2 cs2 ls2
           | out => out) from rfl, hkr] at hres ⊢
    cases res with
    | error e => exact absurd hres (by simp)
    | ok u =>
      cases u
      have hl := migrateProvidersKeys_dry_log happy pre
        (storeKeysWith st (pathJoin [pre, "providers"])) st [] [] k hmem
        (by rw [hkr])
      rw [hkr] at hl
      exact hl

/-- C8 witness: on a concrete store holding one legacy module key and one
provider release key, both dry runs issue zero copies, leave the store
unchanged and report the candidate keys. -/
theorem c8_dry_run_zero_copies_witness :
    (migrateModules happy
        [("modules/acme/mod/aws/mod-1.0.0.tar.gz", "B"),
         ("providers/hashicorp/random/terraform-provider-random_2.0.0_linux_amd64.zip",
          "bin")] "" "tar.gz" true).copies = []
    ∧ LogEntry.dryRun "modules/acme/mod/aws/mod-1.0.0.tar.gz"
        (migrationTargetPath "" "tar.gz" "modules/acme/mod/aws/mod-1.0.0.tar.gz")
        ∈ (migrateModules happy
            [("modules/acme/mod/aws/mod-1.0.0.tar.gz", "B"),
             ("providers/hashicorp/random/terraform-provider-random_2.0.0_linux_amd64.zip",
              "bin")] "" "tar.gz" true).logs
    ∧ (∃ t, LogEntry.dryRun
          "providers/hashicorp/random/terraform-provider-random_2.0.0_linux_amd64.zip" t
          ∈ (migrateProviders happy
              [("modules/acme/mod/aws/mod-1.0.0.tar.gz", "B"),
               ("providers/hashicorp/random/terraform-provider-random_2.0.0_linux_amd64.zip",
                "bin")] "" true).logs) := by
  have h := c8_dry_run_zero_copies happy
    [("modules/acme/mod/aws/mod-1.0.0.tar.gz", "B"),
     ("providers/hashicorp/random/terraform-provider-random_2.0.0_linux_amd64.zip", "bin")]
    "" "tar.gz" "modules/acme/mod/aws/mod-1.0.0.tar.gz"
  have h2 := c8_dry_run_zero_copies happy
    [("modules/acme/mod/aws/mod-1.0.0.tar.gz", "B"),
     ("providers/hashicorp/random/terraform-provider-random_2.0.0_linux_amd64.zip", "bin")]
    "" "tar.gz"
    "providers/hashicorp/random/terraform-provider-random_2.0.0_linux_amd64.zip"
  exact ⟨h.1.1, h.2.2.1 (by decide) (by decide), h2.2.2.2 (by rfl) (by decide)⟩

end BoringRegistry
